import Mathlib

/-!
# Verification of the Hajj-eligibility decision-graph engine

Shallow embedding of the CSV-driven routing core of `src/App.jsx`:
the condition evaluator (`opCompare`), the step router (`evalRoutesFor`
with its helpers), the node-id scheme (`nodeIdFor` / `indexFromNodeId`),
the replay engine (`replayLevel`, embedded as a fuel-indexed loop
`runLoop` together with a proof that the canonical fuel always
suffices), the logic-sheet compiler (`buildLogic`, the pure row-folding
part of `loadLogic`), and `getLevelRulesOrThrow`.

JavaScript values are modelled by `JSVal`.  JS numbers are modelled as
scaled decimals `num / 10 ^ exp` (`JNum`), which covers every number
this program manipulates (integers and finite decimals read from CSV
cells); NaN is expressed at coercion time by `Option JNum`, and
`JNum.toRat` relates the representation to the rationals.  JS objects
used as string-keyed maps are modelled as association lists updated in
place (`setVar`), preserving JS key order.
-/

set_option maxHeartbeats 1000000

namespace HajjElig

/-- A JS number `num / 10 ^ exp`: integers and finite decimals, the only
numbers produced by the engine's coercions. -/
structure JNum where
  num : Int
  exp : Nat
deriving Repr, DecidableEq

/-- The rational value of a modelled JS number. -/
def JNum.toRat (x : JNum) : ℚ := (x.num : ℚ) / (10 : ℚ) ^ x.exp

/-- A JavaScript value as used by the routing engine: booleans, numbers,
strings, `null` and `undefined`. -/
inductive JSVal where
  | vBool (b : Bool)
  | vNum (n : JNum)
  | vStr (s : String)
  | vNull
  | vUndef
deriving Repr, DecidableEq

open JSVal

/-- Decimal digit characters of a natural number (JS digit rendering). -/
def natDigits (n : Nat) : List Char :=
  (Nat.toDigits 10 n)

/-- JS `String()` applied to a number `a / 10 ^ exp`: sign, integer
part, then the fractional digits with trailing zeros stripped — the
canonical JS decimal rendering (exponent notation for huge magnitudes
is outside the model). -/
def jnumToString (x : JNum) : String :=
  let a := x.num.natAbs
  let sign := if x.num < 0 ∧ a ≠ 0 then "-" else ""
  let ip := a / 10 ^ x.exp
  let fr := a % 10 ^ x.exp
  if fr = 0 then sign ++ String.mk (natDigits ip)
  else
    let padded := (List.replicate (x.exp - (natDigits fr).length) '0') ++ natDigits fr
    let frDigits := (padded.reverse.dropWhile (fun c => c = '0')).reverse
    sign ++ String.mk (natDigits ip) ++ "." ++ String.mk frDigits

/-- JS `String()` conversion (ToString) on the modelled values. -/
def jsToString : JSVal → String
  | vBool true => "true"
  | vBool false => "false"
  | vNum x => jnumToString x
  | vStr s => s
  | vNull => "null"
  | vUndef => "undefined"

/-- Numeric value of a list of decimal digit characters. -/
def digitsValNat (cs : List Char) : Nat :=
  cs.foldl (fun acc c => acc * 10 + (c.toNat - 48)) 0

/-- Characters JS `trim` removes, on both ends of a character list. -/
def jsTrimList (cs : List Char) : List Char :=
  ((cs.dropWhile Char.isWhitespace).reverse.dropWhile Char.isWhitespace).reverse

/-- JS `Number()` applied to a string: trimmed, empty means `0`, else an
optionally signed decimal literal (`none` is NaN).  Exponent, hex and
`Infinity` forms — never produced by this program's data — are outside
the model and map to NaN. -/
def parseJsNumber (s : String) : Option JNum :=
  let t := jsTrimList s.data
  if t = [] then some ⟨0, 0⟩
  else
    let signed : Bool × List Char :=
      match t with
      | '-' :: r => (true, r)
      | '+' :: r => (false, r)
      | _ => (false, t)
    let neg := signed.1
    let body := signed.2
    let intPart := body.takeWhile Char.isDigit
    let rest := body.dropWhile Char.isDigit
    let mk : Nat → Nat → Option JNum := fun n k =>
      some ⟨if neg then -(n : Int) else (n : Int), k⟩
    match rest with
    | [] => if intPart = [] then none else mk (digitsValNat intPart) 0
    | '.' :: frac =>
      if frac.all Char.isDigit ∧ (intPart ≠ [] ∨ frac ≠ []) then
        mk (digitsValNat intPart * 10 ^ frac.length + digitsValNat frac) frac.length
      else none
    | _ => none

/-- JS `Number()` coercion (ToNumber); `none` is NaN. -/
def toNumber : JSVal → Option JNum
  | vBool true => some ⟨1, 0⟩
  | vBool false => some ⟨0, 0⟩
  | vNum x => some x
  | vStr s => parseJsNumber s
  | vNull => some ⟨0, 0⟩
  | vUndef => none

/-- `x < y` on modelled JS numbers, by cross multiplication. -/
def jnumLtB (x y : JNum) : Bool :=
  decide (x.num * 10 ^ y.exp < y.num * 10 ^ x.exp)

/-- `x <= y` on modelled JS numbers, by cross multiplication. -/
def jnumLeB (x y : JNum) : Bool :=
  decide (x.num * 10 ^ y.exp ≤ y.num * 10 ^ x.exp)

/-- Lift a comparison to `Option JNum`; any comparison against NaN is
false, as in JS. -/
def jnumCmp (f : JNum → JNum → Bool) : Option JNum → Option JNum → Bool
  | some x, some y => f x y
  | _, _ => false

/-- `opCompare(op, a, b)` from `App.jsx`: `==`/`!=` compare the two
operands stringified; `<`, `<=`, `>`, `>=` compare them coerced to
numbers (false on NaN); any other operator yields false. -/
def opCompare (op : String) (a b : JSVal) : Bool :=
  if op = "==" then jsToString a = jsToString b
  else if op = "!=" then jsToString a ≠ jsToString b
  else if op = "<" then jnumCmp jnumLtB (toNumber a) (toNumber b)
  else if op = "<=" then jnumCmp jnumLeB (toNumber a) (toNumber b)
  else if op = ">" then jnumCmp (fun x y => jnumLtB y x) (toNumber a) (toNumber b)
  else if op = ">=" then jnumCmp (fun x y => jnumLeB y x) (toNumber a) (toNumber b)
  else false

/-- JS `parseInt(s, 10)`: skip leading whitespace, optional sign, then
the longest digit prefix; NaN (`none`) when no digit is found. -/
def jsParseInt (cs : List Char) : Option Int :=
  let t := cs.dropWhile Char.isWhitespace
  let signed : Bool × List Char :=
    match t with
    | '-' :: r => (true, r)
    | '+' :: r => (false, r)
    | _ => (false, t)
  let ds := signed.2.takeWhile Char.isDigit
  if ds = [] then none
  else some (if signed.1 then -(digitsValNat ds : Int) else (digitsValNat ds : Int))

/-- JS `split` with a single-character separator. -/
def splitChar (c : Char) : List Char → List (List Char)
  | [] => [[]]
  | x :: xs =>
    if x = c then [] :: splitChar c xs
    else
      match splitChar c xs with
      | h :: t => (x :: h) :: t
      | [] => [[x]]

/-- `nodeIdFor(levelId, qIndex)`: the fixed id scheme
`"L" + levelId + "Q" + (qIndex + 1)`. -/
def nodeIdFor (levelId : Nat) (qIndex : Int) : String :=
  "L" ++ toString levelId ++ "Q" ++ toString (qIndex + 1)

/-- `indexFromNodeId(nodeId)`: split on `"Q"`, `parseInt` the second
part, and subtract one; `none` models the JS `null` result. -/
def indexFromNodeId (nodeId : String) : Option Int :=
  match (splitChar 'Q' nodeId.data).get? 1 with
  | none => none
  | some p => (jsParseInt p).map (fun n => n - 1)

/-- Accumulated variables: a JS object keyed by field names, modelled as
an association list in JS key order. -/
abbrev Vars := List (String × JSVal)

/-- Property write `vs[k] = v` on a JS object: replace the binding in
place when the key exists, append it otherwise. -/
def setVar : Vars → String → JSVal → Vars
  | [], k, v => [(k, v)]
  | (k', v') :: t, k, v =>
    if k' = k then (k, v) :: t else (k', v') :: setVar t k v

/-- Property read `vs[k]` on a JS object; `none` is `undefined`. -/
def lookupVar (vs : Vars) (k : String) : Option JSVal :=
  (vs.find? (fun p => decide (p.1 = k))).map (fun p => p.2)

/-- `Object.assign(vs, ps)`: apply the assignments in order. -/
def applyAssign (vs : Vars) (ps : List (String × JSVal)) : Vars :=
  ps.foldl (fun acc p => setVar acc p.1 p.2) vs

/-- A route guard as built by the compiler:
`{ field, op, value, next, reason }`. -/
structure Guard where
  field : String
  op : String
  value : JSVal
  next : String
  reason : String
deriving Repr, DecidableEq

/-- A route as built by the compiler: the `when` condition (field, op,
value), optional destination / failure reason / phrase / `set`
assignments / guard / reset target, plus the label metadata kept for the
UI. -/
structure Route where
  whenField : String
  whenOp : String
  whenValue : JSVal
  goto_node : Option String := none
  reason : Option String := none
  print : Option String := none
  set : Option (List (String × JSVal)) := none
  guard : Option Guard := none
  reset_to : Option String := none
  optLabel : String := ""
  optValue : String := ""
deriving Repr, DecidableEq

/-- A graph node: id, answer field, input type, ordered routes and the
optional node-level fallback destination. -/
structure Node where
  id : String
  field : String
  input_type : String
  routes : List Route
  fallback_node : Option String := none
deriving Repr, DecidableEq

/-- A per-level graph: `{ entry_node, nodes, fallback_node }`. -/
structure LevelGraph where
  entry_node : Option String := none
  nodes : List Node := []
  fallback_node : Option String := none
deriving Repr, DecidableEq

/-- A step outcome as returned by `evalRoutesFor`: `ok`, and the
optional fields the JS object may carry. -/
structure Outcome where
  ok : Bool
  vars : Option Vars := none
  complete : Bool := false
  reason : Option String := none
  nextNode : Option String := none
  action : Option String := none
  print : Option String := none
  guardReason : Option String := none
deriving Repr, DecidableEq

/-- JS truthiness of an optional string: present and non-empty. -/
def optTruthy : Option String → Bool
  | some s => s ≠ ""
  | none => false

/-- JS `o || d` for an optional string `o` and non-empty default `d`. -/
def strOr (o : Option String) (d : String) : String :=
  match o with
  | some s => if s = "" then d else s
  | none => d

/-- JS `s || d` for a string `s` and default `d`. -/
def strOrS (s d : String) : String := if s = "" then d else s

/-- Answer normalization for `"bool"` nodes: textual yes/no/true/false
(case-insensitive, trimmed) become booleans; anything else is left as
given. -/
def normalizeAnswer (node : Node) (uiAnswer : JSVal) : JSVal :=
  if node.input_type = "bool" then
    let s := String.mk ((jsTrimList (jsToString uiAnswer).data).map Char.toLower)
    if s = "yes" then vBool true
    else if s = "no" then vBool false
    else if s = "true" then vBool true
    else if s = "false" then vBool false
    else uiAnswer
  else uiAnswer

/-- The updated vars snapshot: a copy of `vars` with the normalized
answer recorded under the node's field name (when the field is
truthy). -/
def recordAnswer (node : Node) (uiAnswer : JSVal) (vars : Vars) : Vars :=
  if node.field ≠ "" then setVar vars node.field (normalizeAnswer node uiAnswer)
  else vars

/-- Does the route's `when` condition match against the updated vars? -/
def whenMatch (vs : Vars) (r : Route) : Bool :=
  opCompare r.whenOp ((lookupVar vs r.whenField).getD vUndef) r.whenValue

/-- Does the route's guard condition match against the updated vars? -/
def guardMatch (vs : Vars) (g : Guard) : Bool :=
  opCompare g.op ((lookupVar vs g.field).getD vUndef) g.value

/-- Outcome of a matched route whose guard also matched: resolve via the
guard's `next` (`FAIL` / `END` / non-empty node id / empty). -/
def guardOutcome (vs : Vars) (g : Guard) (r : Route) : Outcome :=
  if g.next = "FAIL" then
    { ok := false, vars := some vs, reason := some (strOrS g.reason "L"), print := r.print }
  else if g.next = "END" then
    { ok := true, vars := some vs, complete := true, print := r.print,
      guardReason := some g.reason }
  else if g.next ≠ "" then
    { ok := true, vars := some vs, nextNode := some g.next, print := r.print,
      guardReason := some g.reason }
  else
    { ok := false, vars := some vs, reason := some (strOrS g.reason "L"), print := r.print }

/-- Outcome of a matched, unguarded route: apply its `set` effects, then
resolve via `goto_node` / `reset_to`. -/
def normalOutcome (vs : Vars) (r : Route) : Outcome :=
  let vs' := match r.set with
    | some ps => applyAssign vs ps
    | none => vs
  if r.goto_node = some "END" then
    { ok := true, vars := some vs', complete := true, print := r.print }
  else if optTruthy r.reset_to then
    { ok := true, vars := some vs', action := some "resetTo", nextNode := r.reset_to,
      print := r.print }
  else if r.goto_node = some "FAIL" then
    { ok := false, vars := some vs', reason := some (strOr r.reason "L"), print := r.print }
  else if optTruthy r.goto_node then
    { ok := true, vars := some vs', nextNode := r.goto_node, print := r.print }
  else
    { ok := true, vars := some vs', print := r.print }

/-- One iteration of the route loop: `none` means the route is skipped
(`continue`) — its `when` failed, or its guard is present and failed. -/
def tryRoute (vs : Vars) (r : Route) : Option Outcome :=
  if ¬ whenMatch vs r then none
  else
    match r.guard with
    | some g => if guardMatch vs g then some (guardOutcome vs g r) else none
    | none => some (normalOutcome vs r)

/-- The `for (const r of node.routes)` scan: first non-skipped route
wins. -/
def scanRoutes (vs : Vars) : List Route → Option Outcome
  | [] => none
  | r :: rest =>
    match tryRoute vs r with
    | some o => some o
    | none => scanRoutes vs rest

/-- Node-level fallback once no route matched: `FAIL` / `END` /
non-empty node id / absent. -/
def fallbackOutcome (node : Node) (vs : Vars) : Outcome :=
  if node.fallback_node = some "FAIL" then
    { ok := false, vars := some vs, reason := some "L" }
  else if node.fallback_node = some "END" then
    { ok := true, vars := some vs, complete := true }
  else if optTruthy node.fallback_node then
    { ok := true, vars := some vs, nextNode := node.fallback_node }
  else
    { ok := true, vars := some vs }

/-- `evalRoutesFor(levelRules, nodeId, uiAnswer, vars)`: the step
router.  Missing rules or an unknown node id yield the bare
`{ ok: true }` outcome (with no vars snapshot); otherwise the answer is
normalized and recorded into a copy of vars, the routes are scanned in
declaration order, and the node fallback applies when no route is
taken. -/
def evalRoutesFor (levelRules : Option LevelGraph) (nodeId : String)
    (uiAnswer : JSVal) (vars : Vars) : Outcome :=
  match levelRules with
  | none => { ok := true }
  | some lr =>
    match lr.nodes.find? (fun n => decide (n.id = nodeId)) with
    | none => { ok := true }
    | some node =>
      let outVars := recordAnswer node uiAnswer vars
      match scanRoutes outVars node.routes with
      | some o => o
      | none => fallbackOutcome node outVars

/-- `passesRule(levelId, qIndex, answer, options)`: route the answer for
the node derived from the fixed id scheme.  (The JS `if (res) return
res` branch always fires, an outcome object being truthy.) -/
def passesRule (levelId : Nat) (qIndex : Int) (answer : JSVal)
    (levelRules : Option LevelGraph) (vars : Vars) : Outcome :=
  evalRoutesFor levelRules (nodeIdFor levelId qIndex) answer vars

/-- The `stop` record of a failed replay: `{ qIndex, reason }`. -/
structure Stop where
  qIndex : Int
  reason : String
deriving Repr, DecidableEq

/-- The answers map: question index → submitted value, a JS object
modelled as an association list. -/
abbrev AMap := List (Int × JSVal)

/-- `answersMap[i]`; `none` is `undefined`. -/
def lookupA (answers : AMap) (i : Int) : Option JSVal :=
  (answers.find? (fun p => decide (p.1 = i))).map (fun p => p.2)

/-- What the replay `while` loop accumulates: the visited path, the
threaded vars, the failure record, the END flag, and the last truthy
`print` / `guardReason`. -/
structure LoopOut where
  path : List Int
  vars : Vars
  stop : Option Stop
  ended : Bool
  print : Option String
  guardReason : Option String
deriving Repr, DecidableEq

/-- The replay `while` loop of `replayLevel`, indexed by fuel (`none`
means the fuel ran out — `runLoop_total` below shows the canonical fuel
never does).  Each iteration mirrors the JS loop body: cycle guard,
push, answer lookup, step, then outcome handling. -/
def runLoop (levelId maxQ : Nat) (rules : Option LevelGraph) (answers : AMap) :
    Nat → Option Int → List Int → Vars → Option String → Option String → Option LoopOut
  | 0, _, _, _, _, _ => none
  | fuel + 1, qIdx?, seen, vars, pr, gr =>
    match qIdx? with
    | none => some ⟨[], vars, none, false, pr, gr⟩
    | some q =>
      if q < (maxQ : Int) then
        if q ∈ seen then some ⟨[], vars, none, false, pr, gr⟩
        else
          match lookupA answers q with
          | none => some ⟨[q], vars, none, false, pr, gr⟩
          | some val =>
            let res := passesRule levelId q val rules vars
            let vars' := (res.vars).getD vars
            let pr' := if optTruthy res.print then res.print else pr
            let gr' := if optTruthy res.guardReason then res.guardReason else gr
            if res.complete then some ⟨[q], vars', none, true, pr', gr'⟩
            else if res.ok = false then
              some ⟨[q], vars', some ⟨q, strOr res.reason "NOT_ELIGIBLE_CONTINUE"⟩,
                false, pr', gr'⟩
            else
              let jump :=
                (runLoop levelId maxQ rules answers fuel
                  (match res.nextNode with
                    | some s => indexFromNodeId s
                    | none => none)
                  (q :: seen) vars' pr' gr').map
                  (fun o => { o with path := q :: o.path })
              if res.action = some "resetTo" ∧ optTruthy res.nextNode then jump
              else if optTruthy res.nextNode then jump
              else some ⟨[q], vars', none, false, pr', gr'⟩
      else some ⟨[], vars, none, false, pr, gr⟩

/-- The singleton or empty list of an optional string. -/
def optL : Option String → List String
  | some s => [s]
  | none => []

/-- The jump destinations one route can hand back: `goto_node`,
`reset_to`, and the guard's `next`. -/
def routeTargets (r : Route) : List String :=
  optL r.goto_node ++ optL r.reset_to ++
    (match r.guard with
      | some gu => [gu.next]
      | none => [])

/-- The jump destinations one node can hand back: its fallback plus its
routes' targets. -/
def nodeTargets (n : Node) : List String :=
  optL n.fallback_node ++ n.routes.flatMap routeTargets

/-- Every string the router can hand back as a jump destination. -/
def targetStrings : Option LevelGraph → List String
  | none => []
  | some g => g.nodes.flatMap nodeTargets

/-- Every question index the loop can ever sit at: the entry index `0`
plus the parsed index of every jump destination. -/
def candIdxs (rules : Option LevelGraph) : List Int :=
  0 :: (targetStrings rules).filterMap indexFromNodeId

/-- The canonical fuel: one more than the number of distinct reachable
indices, enough for the loop to exit on its own. -/
def loopFuel (rules : Option LevelGraph) : Nat :=
  (candIdxs rules).dedup.length + 1

/-- `prunedAnswers`: the answers restricted to the indices on the final
path, in path order. -/
def prune (path : List Int) (answers : AMap) : AMap :=
  path.filterMap (fun i => (lookupA answers i).map (fun v => (i, v)))

/-- The fixed default vars each replay starts from
(`HEALTH_STATE` falls back to `"GREEN"` when the inherited value is
falsy). -/
def defaultVars (healthState : String) : Vars :=
  [("NIYABAT", vBool false), ("GIFT", vBool false),
   ("HEALTH_STATE", vStr (strOrS healthState "GREEN")),
   ("END_PHRASE", vNull)]

/-- What `replayLevel` returns; the pruned answers sit under the key
`answers` as in the source. -/
structure ReplayOut where
  path : List Int
  vars : Vars
  stop : Option Stop
  ended : Bool
  answers : AMap
  print : Option String
  guardReason : Option String
deriving Repr, DecidableEq

/-- `replayLevel({levelId, lvl, levelRules, answersMap, healthState})`:
walk from question index 0 with the default vars, then restrict the
answers to the final path.  `maxQ` is `lvl.questions.length`.  The
fallback arm is unreachable (`runLoop_total`). -/
def replayLevel (levelId maxQ : Nat) (levelRules : Option LevelGraph)
    (answersMap : AMap) (healthState : String) : ReplayOut :=
  let vars0 := defaultVars healthState
  match runLoop levelId maxQ levelRules answersMap (loopFuel levelRules)
      (some 0) [] vars0 none none with
  | some o => ⟨o.path, o.vars, o.stop, o.ended, prune o.path answersMap, o.print, o.guardReason⟩
  | none => ⟨[], vars0, none, false, [], none, none⟩

/-- One considered rule row: the sixteen named cells, each already
defaulted to `""` exactly as `row[idx(name)] || ""` does in
`loadLogic`. -/
structure Row where
  level : String := ""
  qId : String := ""
  input_type : String := ""
  field : String := ""
  option_label : String := ""
  option_value : String := ""
  next : String := ""
  fail_reason : String := ""
  set_vars : String := ""
  phrase : String := ""
  guard_if_var : String := ""
  guard_op : String := ""
  guard_value : String := ""
  guard_next : String := ""
  guard_reason : String := ""
  fallback : String := ""
deriving Repr, DecidableEq

/-- The compiled logic: level key → level graph, in insertion order. -/
abbrev Logic := List (String × LevelGraph)

/-- `logic[key]` lookup. -/
def lookupL (m : Logic) (key : String) : Option LevelGraph :=
  (m.find? (fun p => decide (p.1 = key))).map (fun p => p.2)

/-- Update the graph stored under `key` (keys are unique by
construction). -/
def updateL (m : Logic) (key : String) (f : LevelGraph → LevelGraph) : Logic :=
  m.map (fun p => if p.1 = key then (p.1, f p.2) else p)

/-- Coerce one `set_vars` value: literal `true`/`false` become booleans,
a non-empty numeric cell becomes a number, anything else stays a string;
a missing value (a pair without `=`) stays `undefined`. -/
def coerceSetVal : Option String → JSVal
  | none => vUndef
  | some v =>
    if v = "true" then vBool true
    else if v = "false" then vBool false
    else
      match parseJsNumber v with
      | some q => if v = "" then vStr v else vNum q
      | none => vStr v

/-- `parseSetVars(s)`: semicolon-separated `key=value` assignments,
trimmed, coerced per `coerceSetVal`, later pairs overwriting earlier
ones with the same key. -/
def parseSetVars (s : String) : List (String × JSVal) :=
  if s = "" then []
  else
    (splitChar ';' s.data).foldl
      (fun out pair =>
        if jsTrimList pair = [] then out
        else
          let parts := (splitChar '=' pair).map (fun cs => String.mk (jsTrimList cs))
          match parts.get? 0 with
          | none => out
          | some k =>
            if k = "" then out
            else setVar out k (coerceSetVal (parts.get? 1))) []

/-- The per-row body of the compiler loop in `loadLogic`: skip rows with
an empty `level` or `qId` cell, ensure the level entry, find or create
the node (the first node created for a level becomes `entry_node`),
build the row's route, set the node fallback on first occurrence, and
append the route. -/
def buildStep (acc : Logic) (row : Row) : Logic :=
  if row.level = "" then acc
  else if row.qId = "" then acc
  else
    let itype := strOrS row.input_type "bool"
    let field := strOrS row.field row.qId
    let acc :=
      if (lookupL acc row.level).isNone then
        acc ++ [(row.level, { entry_node := none, nodes := [], fallback_node := none })]
      else acc
    updateL acc row.level (fun g =>
      let found := g.nodes.find? (fun n => decide (n.id = row.qId))
      let node : Node :=
        match found with
        | some n => n
        | none =>
          { id := row.qId, field := field,
            input_type := if itype = "options" ∨ itype = "options3" then "options3" else itype,
            routes := [], fallback_node := none }
      let g : LevelGraph :=
        match found with
        | some _ => g
        | none =>
          { g with nodes := g.nodes ++ [node],
                   entry_node := if g.entry_node = none then some row.qId else g.entry_node }
      let stableValue : JSVal :=
        if node.input_type = "bool" then
          vBool (String.mk (row.option_value.data.map Char.toLower) = "true")
        else vStr (strOrS row.option_value row.option_label)
      let route0 : Route :=
        { whenOp := "==", whenField := field, whenValue := stableValue,
          goto_node := if row.next = "" then none else some row.next,
          optLabel := row.option_label,
          optValue := strOrS row.option_value row.option_label }
      let route1 :=
        if row.fail_reason ≠ "" ∧ (row.next = "" ∨ row.next = "FAIL") then
          { route0 with goto_node := some "FAIL", reason := some row.fail_reason }
        else route0
      let route2 :=
        if row.phrase ≠ "" then { route1 with print := some row.phrase } else route1
      let sv := parseSetVars row.set_vars
      let route3 := if sv ≠ [] then { route2 with set := some sv } else route2
      let rowGuard : Guard :=
        ⟨row.guard_if_var, row.guard_op, vStr row.guard_value, row.guard_next,
          row.guard_reason⟩
      let route4 :=
        if row.guard_if_var ≠ "" ∧ row.guard_op ≠ "" then
          { route3 with guard := some rowGuard }
        else route3
      let g :=
        if row.fallback ≠ "" then
          { g with nodes := g.nodes.map (fun n =>
              if n.id = row.qId ∧ n.fallback_node = none then
                { n with fallback_node := some row.fallback }
              else n) }
        else g
      { g with nodes := g.nodes.map (fun n =>
          if n.id = row.qId then { n with routes := n.routes ++ [route4] } else n) })

/-- The compiler loop of `loadLogic` over all considered rows. -/
def buildLogic (rows : List Row) : Logic :=
  rows.foldl buildStep []

/-- `getLevelRulesOrThrow(levelId, logic)`: a missing logic sheet, a
missing level key, or an empty node list raise an error to the caller
(`Except.error` models `throw`). -/
def getLevelRulesOrThrow (levelId : Nat) (logic : Option Logic) :
    Except String LevelGraph :=
  match logic with
  | none => Except.error "Logic sheet not loaded."
  | some m =>
    match lookupL m (toString levelId) with
    | none =>
      Except.error ("Logic sheet missing nodes for level " ++ toString levelId ++ ".")
    | some rules =>
      if rules.nodes.length = 0 then
        Except.error ("Logic sheet missing nodes for level " ++ toString levelId ++ ".")
      else Except.ok rules

/-- The bool-gate scenario row of §8: node `L1Q1`, field `eligible`,
`when eligible == true goto L1Q2`, `fail_reason "NOT_OK"`, node fallback
`FAIL`. -/
def boolGateRow : Row :=
  { level := "1", qId := "L1Q1", input_type := "bool", field := "eligible",
    option_label := "Yes", option_value := "true", next := "L1Q2",
    fail_reason := "NOT_OK", fallback := "FAIL" }

/-- The compiled bool-gate scenario graph for level 1. -/
def boolGateRules : Option LevelGraph :=
  lookupL (buildLogic [boolGateRow]) "1"

/-- The route the compiler builds from `boolGateRow`. -/
def boolGateRoute : Route :=
  { whenField := "eligible", whenOp := "==", whenValue := vBool true,
    goto_node := some "L1Q2", optLabel := "Yes", optValue := "true" }

/-- The node the compiler builds from `boolGateRow`. -/
def boolGateNode : Node :=
  { id := "L1Q1", field := "eligible", input_type := "bool",
    routes := [boolGateRoute], fallback_node := some "FAIL" }

example :
    buildLogic [boolGateRow] =
      [("1", { entry_node := some "L1Q1", nodes := [boolGateNode] })] := by decide

example :
    (replayLevel 1 2 boolGateRules [(0, vStr "No")] "").stop = some ⟨0, "L"⟩ := by
  decide

example :
    (replayLevel 1 2 boolGateRules [(0, vStr "Yes")] "").path = [0, 1] ∧
    (replayLevel 1 2 boolGateRules [(0, vStr "Yes")] "").stop = none := by decide

/-- A route jumping to `"L1Q0"`, whose parsed index is `-1`. -/
def negTargetRoute : Route :=
  { whenField := "f", whenOp := "==", whenValue := vStr "x",
    goto_node := some "L1Q0" }

/-- A graph whose single route jumps to `"L1Q0"`: used to refute the
`[0, maxQ)` path-range claim. -/
def negTargetRules : Option LevelGraph :=
  some ⟨some "L1Q1", [⟨"L1Q1", "f", "t", [negTargetRoute], none⟩], none⟩

example :
    (replayLevel 1 1 negTargetRules [(0, vStr "x")] "").path = [0, -1] := by decide

example : jsToString (vNum ⟨25, 1⟩) = "2.5" := by decide
example : jsToString (vNum ⟨-250, 2⟩) = "-2.5" := by decide
example : jsToString (vNum ⟨-3, 0⟩) = "-3" := by decide
example : jsToString (vNum ⟨0, 0⟩) = "0" := by decide
example : opCompare "==" (vBool true) (vStr "true") = true := by decide
example : opCompare "<" (vStr "no") (vStr "3") = false := by decide
example : opCompare "<" (vStr "15") (vStr "18") = true := by decide
example : opCompare ">=" (vNum ⟨15, 0⟩) (vStr "18") = false := by decide
example : parseJsNumber " 2.5 " = some ⟨25, 1⟩ := by decide
example : parseJsNumber "" = some ⟨0, 0⟩ := by decide
example : parseJsNumber "yes" = none := by decide
example : indexFromNodeId "L1Q2" = some 1 := by decide
example : indexFromNodeId "L1Q0" = some (-1) := by decide
example : indexFromNodeId "L1" = none := by decide
example : nodeIdFor 1 0 = "L1Q1" := by decide

/-! ## Association-list lemmas -/

theorem lookupVar_nil (k : String) : lookupVar [] k = none := rfl

theorem lookupVar_cons (k' : String) (v' : JSVal) (t : Vars) (k : String) :
    lookupVar ((k', v') :: t) k = if k' = k then some v' else lookupVar t k := by
  by_cases h : k' = k
  · simp [lookupVar, List.find?_cons_of_pos, h]
  · simp [lookupVar, List.find?_cons_of_neg, h]

theorem lookupVar_setVar_self (vs : Vars) (k : String) (v : JSVal) :
    lookupVar (setVar vs k v) k = some v := by
  induction vs with
  | nil => simp [setVar, lookupVar_cons, lookupVar_nil]
  | cons p t ih =>
    obtain ⟨k', v'⟩ := p
    by_cases h : k' = k
    · simp [setVar, h, lookupVar_cons]
    · simp [setVar, h, lookupVar_cons, ih]

theorem lookupVar_setVar_ne (vs : Vars) (k k' : String) (v : JSVal) (h : k' ≠ k) :
    lookupVar (setVar vs k v) k' = lookupVar vs k' := by
  have hne : ¬ k = k' := fun h2 => h h2.symm
  induction vs with
  | nil =>
    simp only [setVar, lookupVar_cons, lookupVar_nil]
    rw [if_neg hne]
  | cons p t ih =>
    obtain ⟨k0, v0⟩ := p
    by_cases h0 : k0 = k
    · subst h0
      have h1 : setVar ((k0, v0) :: t) k0 v = (k0, v) :: t := by simp [setVar]
      rw [h1, lookupVar_cons, lookupVar_cons, if_neg hne, if_neg hne]
    · simp only [setVar, if_neg h0, lookupVar_cons, ih]

theorem lookupVar_applyAssign_not_mem (ps : List (String × JSVal)) (vs : Vars)
    (k : String) (h : ∀ p ∈ ps, p.1 ≠ k) :
    lookupVar (applyAssign vs ps) k = lookupVar vs k := by
  induction ps generalizing vs with
  | nil => rfl
  | cons p t ih =>
    have hh : applyAssign vs (p :: t) = applyAssign (setVar vs p.1 p.2) t := rfl
    rw [hh, ih _ (fun q hq => h q (List.mem_cons_of_mem _ hq)),
      lookupVar_setVar_ne _ _ _ _ (fun h2 => h p (List.mem_cons_self _ _) h2.symm)]

/-! ## Route-scan lemmas -/

theorem scanRoutes_cons_some {vs : Vars} {r : Route} {o : Outcome}
    (h : tryRoute vs r = some o) (rest : List Route) :
    scanRoutes vs (r :: rest) = some o := by
  simp [scanRoutes, h]

theorem scanRoutes_cons_none {vs : Vars} {r : Route}
    (h : tryRoute vs r = none) (rest : List Route) :
    scanRoutes vs (r :: rest) = scanRoutes vs rest := by
  simp [scanRoutes, h]

theorem tryRoute_eq_none_iff (vs : Vars) (r : Route) :
    tryRoute vs r = none ↔
      (whenMatch vs r = false ∨
        ∃ g, r.guard = some g ∧ guardMatch vs g = false) := by
  by_cases hw : whenMatch vs r = true
  · cases hg : r.guard with
    | none => simp [tryRoute, hw, hg]
    | some g =>
      by_cases hm : guardMatch vs g = true
      · simp [tryRoute, hw, hg, hm]
      · simp only [Bool.not_eq_true] at hm
        simp [tryRoute, hw, hg, hm]
  · simp only [Bool.not_eq_true] at hw
    simp [tryRoute, hw]

theorem scanRoutes_append_skip {vs : Vars} {pre : List Route}
    (h : ∀ p ∈ pre, tryRoute vs p = none) (l : List Route) :
    scanRoutes vs (pre ++ l) = scanRoutes vs l := by
  induction pre with
  | nil => rfl
  | cons p t ih =>
    rw [List.cons_append, scanRoutes_cons_none (h p (List.mem_cons_self _ _)),
      ih (fun q hq => h q (List.mem_cons_of_mem _ hq))]

theorem scanRoutes_mem {vs : Vars} {rs : List Route} {o : Outcome}
    (h : scanRoutes vs rs = some o) :
    ∃ r ∈ rs, tryRoute vs r = some o := by
  induction rs with
  | nil => simp [scanRoutes] at h
  | cons r t ih =>
    cases ht : tryRoute vs r with
    | some o' =>
      rw [scanRoutes_cons_some ht] at h
      exact ⟨r, List.mem_cons_self _ _, by rw [ht, h]⟩
    | none =>
      rw [scanRoutes_cons_none ht] at h
      obtain ⟨r', hr', h'⟩ := ih h
      exact ⟨r', List.mem_cons_of_mem _ hr', h'⟩

/-- The vars snapshot of a taken route: unchanged for a guard
resolution, otherwise the route's `set` assignments applied. -/
theorem tryRoute_vars {vs : Vars} {r : Route} {o : Outcome}
    (h : tryRoute vs r = some o) :
    o.vars = some vs ∨
      ∃ ps, r.set = some ps ∧ o.vars = some (applyAssign vs ps) := by
  by_cases hw : whenMatch vs r = true
  · cases hg : r.guard with
    | some g =>
      by_cases hm : guardMatch vs g = true
      · simp [tryRoute, hw, hg, hm] at h
        left
        rw [← h]
        simp only [guardOutcome]
        split
        · rfl
        · split
          · rfl
          · split
            · rfl
            · rfl
      · simp [tryRoute, hw, hg, hm] at h
    | none =>
      simp [tryRoute, hw, hg] at h
      cases hs : r.set with
      | some ps =>
        right
        refine ⟨ps, rfl, ?_⟩
        rw [← h]
        simp only [normalOutcome, hs]
        split
        · rfl
        · split
          · rfl
          · split
            · rfl
            · split
              · rfl
              · rfl
      | none =>
        left
        rw [← h]
        simp only [normalOutcome, hs]
        split
        · rfl
        · split
          · rfl
          · split
            · rfl
            · split
              · rfl
              · rfl
  · simp [tryRoute, hw] at h

/-! ## Jump-target lemmas, toward termination -/

theorem guardOutcome_nextNode {vs : Vars} {g : Guard} {r : Route} {s : String}
    (hn : (guardOutcome vs g r).nextNode = some s) : s = g.next := by
  unfold guardOutcome at hn
  split at hn
  · simp at hn
  · split at hn
    · simp at hn
    · split at hn
      · exact (Option.some.injEq _ _ ▸ hn).symm
      · simp at hn

theorem normalOutcome_nextNode {vs : Vars} {r : Route} {s : String}
    (hn : (normalOutcome vs r).nextNode = some s) :
    r.reset_to = some s ∨ r.goto_node = some s := by
  simp only [normalOutcome] at hn
  split at hn
  · simp at hn
  · split at hn
    · exact Or.inl (by simpa using hn)
    · split at hn
      · simp at hn
      · split at hn
        · exact Or.inr (by simpa using hn)
        · simp at hn

theorem fallbackOutcome_nextNode {n : Node} {vs : Vars} {s : String}
    (hn : (fallbackOutcome n vs).nextNode = some s) :
    n.fallback_node = some s := by
  unfold fallbackOutcome at hn
  split at hn
  · simp at hn
  · split at hn
    · simp at hn
    · split at hn
      · exact hn
      · simp at hn

theorem tryRoute_nextNode {vs : Vars} {r : Route} {o : Outcome} {s : String}
    (h : tryRoute vs r = some o) (hn : o.nextNode = some s) :
    s ∈ routeTargets r := by
  unfold tryRoute at h
  split at h
  · simp at h
  · split at h
    next g hg =>
      split at h
      · cases h
        have hs := guardOutcome_nextNode hn
        subst hs
        simp [routeTargets, hg, optL]
      · simp at h
    next hg =>
      cases h
      rcases normalOutcome_nextNode hn with h1 | h1
      · simp [routeTargets, optL, h1]
      · simp [routeTargets, optL, h1]

theorem evalRoutesFor_nextNode_mem {rl : Option LevelGraph} {nodeId : String}
    {a : JSVal} {vs : Vars} {s : String}
    (h : (evalRoutesFor rl nodeId a vs).nextNode = some s) :
    s ∈ targetStrings rl := by
  simp only [evalRoutesFor] at h
  split at h
  · simp at h
  next lr =>
    split at h
    · simp at h
    next node hfind =>
      have hmem : node ∈ lr.nodes := List.mem_of_find?_eq_some hfind
      split at h
      next o hscan =>
        obtain ⟨r, hr, htr⟩ := scanRoutes_mem hscan
        have hst : s ∈ routeTargets r := tryRoute_nextNode htr h
        refine List.mem_flatMap.mpr ⟨node, hmem, ?_⟩
        exact List.mem_append_right _ (List.mem_flatMap.mpr ⟨r, hr, hst⟩)
      next hscan =>
        have hfb := fallbackOutcome_nextNode h
        refine List.mem_flatMap.mpr ⟨node, hmem, ?_⟩
        exact List.mem_append_left _ (by simp [optL, hfb])

theorem nodup_subset_dedup_length {seen cand : List Int} (hnd : seen.Nodup)
    (hsub : ∀ i ∈ seen, i ∈ cand) : seen.length ≤ cand.dedup.length := by
  have h1 : seen.toFinset.card = seen.length := List.toFinset_card_of_nodup hnd
  have h2 : seen.toFinset ⊆ cand.toFinset := by
    intro a ha
    rw [List.mem_toFinset] at ha ⊢
    exact hsub a ha
  have h3 : cand.toFinset.card = cand.dedup.length := List.card_toFinset cand
  calc seen.length = seen.toFinset.card := h1.symm
    _ ≤ cand.toFinset.card := Finset.card_le_card h2
    _ = cand.dedup.length := h3

/-- Termination of the replay loop: with the canonical invariants (the
distinct already-visited indices and the current index all belong to the
finite candidate set) and enough fuel, the loop always exits on its own
— the fuel never runs out. -/
theorem runLoop_total (levelId maxQ : Nat) (rules : Option LevelGraph)
    (answers : AMap) :
    ∀ (fuel : Nat) (qIdx? : Option Int) (seen : List Int) (vars : Vars)
      (pr gr : Option String),
      seen.Nodup → (∀ i ∈ seen, i ∈ candIdxs rules) →
      (∀ q, qIdx? = some q → q ∈ candIdxs rules) →
      (candIdxs rules).dedup.length + 1 ≤ fuel + seen.length →
      (runLoop levelId maxQ rules answers fuel qIdx? seen vars pr gr).isSome = true := by
  intro fuel
  induction fuel with
  | zero =>
    intro qIdx? seen vars pr gr hnd hsub hq hfuel
    exfalso
    have := nodup_subset_dedup_length hnd hsub
    omega
  | succ fuel ih =>
    intro qIdx? seen vars pr gr hnd hsub hq hfuel
    cases qIdx? with
    | none => simp [runLoop]
    | some q =>
      have hqc : q ∈ candIdxs rules := hq q rfl
      simp only [runLoop]
      split
      · split
        · simp
        next hseen =>
          split
          · simp
          next val hla =>
            have hnext : ∀ q',
                (match (passesRule levelId q val rules vars).nextNode with
                  | some s => indexFromNodeId s
                  | none => none) = some q' → q' ∈ candIdxs rules := by
              intro q' hq'
              cases hn : (passesRule levelId q val rules vars).nextNode with
              | none => rw [hn] at hq'; simp at hq'
              | some s =>
                rw [hn] at hq'
                simp only at hq'
                have hs : s ∈ targetStrings rules := evalRoutesFor_nextNode_mem hn
                exact List.mem_cons_of_mem _ (List.mem_filterMap.mpr ⟨s, hs, hq'⟩)
            have hrec := ih
              (match (passesRule levelId q val rules vars).nextNode with
                | some s => indexFromNodeId s
                | none => none)
              (q :: seen)
              (((passesRule levelId q val rules vars).vars).getD vars)
              (if optTruthy (passesRule levelId q val rules vars).print then
                (passesRule levelId q val rules vars).print else pr)
              (if optTruthy (passesRule levelId q val rules vars).guardReason then
                (passesRule levelId q val rules vars).guardReason else gr)
              (List.nodup_cons.mpr ⟨hseen, hnd⟩)
              (by
                intro i hi
                rcases List.mem_cons.mp hi with h1 | h1
                · exact h1 ▸ hqc
                · exact hsub i h1)
              hnext
              (by simp only [List.length_cons]; omega)
            split
            · simp
            · split
              · simp
              · split
                · simpa using hrec
                · split
                  · simpa using hrec
                  · simp
      · simp

/-- The canonical fuel satisfies `runLoop_total` from the initial state. -/
theorem runLoop_total_init (levelId maxQ : Nat) (rules : Option LevelGraph)
    (answers : AMap) (vars : Vars) (pr gr : Option String) :
    (runLoop levelId maxQ rules answers (loopFuel rules) (some 0) [] vars pr gr).isSome
      = true := by
  apply runLoop_total
  · exact List.nodup_nil
  · intro i hi
    simp at hi
  · intro q hq
    cases hq
    exact List.mem_cons_self _ _
  · simp [loopFuel]

/-- The loop reads the answers map only at the indices of the path it
produces: a second answers map agreeing there replays to the very same
result. -/
theorem runLoop_agree (levelId maxQ : Nat) (rules : Option LevelGraph)
    (answers answers' : AMap) :
    ∀ (fuel : Nat) (qIdx? : Option Int) (seen : List Int) (vars : Vars)
      (pr gr : Option String) (out : LoopOut),
      runLoop levelId maxQ rules answers fuel qIdx? seen vars pr gr = some out →
      (∀ i ∈ out.path, lookupA answers' i = lookupA answers i) →
      runLoop levelId maxQ rules answers' fuel qIdx? seen vars pr gr = some out := by
  intro fuel
  induction fuel with
  | zero =>
    intro qIdx? seen vars pr gr out h hagree
    simp [runLoop] at h
  | succ fuel ih =>
    intro qIdx? seen vars pr gr out h hagree
    cases qIdx? with
    | none => exact h
    | some q =>
      simp only [runLoop] at h ⊢
      by_cases hlt : q < (maxQ : Int)
      · rw [if_pos hlt] at h ⊢
        by_cases hseen : q ∈ seen
        · rw [if_pos hseen] at h ⊢
          exact h
        · rw [if_neg hseen] at h ⊢
          cases hla : lookupA answers q with
          | none =>
            rw [hla] at h
            cases h
            have hla' : lookupA answers' q = none := by
              rw [hagree q (by simp)]
              exact hla
            rw [hla']
          | some val =>
            rw [hla] at h
            simp only at h
            by_cases hc : (passesRule levelId q val rules vars).complete = true
            · rw [if_pos hc] at h
              cases h
              rw [hagree q (by simp), hla]
              simp only
              rw [if_pos hc]
            · rw [if_neg hc] at h
              by_cases hok : (passesRule levelId q val rules vars).ok = false
              · rw [if_pos hok] at h
                cases h
                rw [hagree q (by simp), hla]
                simp only
                rw [if_neg hc, if_pos hok]
              · rw [if_neg hok] at h
                by_cases hr1 : (passesRule levelId q val rules vars).action = some "resetTo"
                    ∧ optTruthy (passesRule levelId q val rules vars).nextNode = true
                · rw [if_pos hr1] at h
                  rcases Option.map_eq_some'.mp h with ⟨o, ho, hodef⟩
                  have hmem : q ∈ out.path := by
                    rw [← hodef]
                    simp
                  have hrec := ih _ _ _ _ _ _ ho (by
                    intro i hi
                    apply hagree i
                    rw [← hodef]
                    simp only [List.mem_cons]
                    exact Or.inr hi)
                  rw [hagree q hmem, hla]
                  simp only
                  rw [if_neg hc, if_neg hok, if_pos hr1]
                  rw [Option.map_eq_some']
                  exact ⟨o, hrec, hodef⟩
                · rw [if_neg hr1] at h
                  by_cases hr2 : optTruthy (passesRule levelId q val rules vars).nextNode
                      = true
                  · rw [if_pos hr2] at h
                    rcases Option.map_eq_some'.mp h with ⟨o, ho, hodef⟩
                    have hmem : q ∈ out.path := by
                      rw [← hodef]
                      simp
                    have hrec := ih _ _ _ _ _ _ ho (by
                      intro i hi
                      apply hagree i
                      rw [← hodef]
                      simp only [List.mem_cons]
                      exact Or.inr hi)
                    rw [hagree q hmem, hla]
                    simp only
                    rw [if_neg hc, if_neg hok, if_neg hr1, if_pos hr2]
                    rw [Option.map_eq_some']
                    exact ⟨o, hrec, hodef⟩
                  · rw [if_neg hr2] at h
                    cases h
                    rw [hagree q (by simp), hla]
                    simp only
                    rw [if_neg hc, if_neg hok, if_neg hr1, if_neg hr2]
      · rw [if_neg hlt] at h ⊢
        exact h

/-- Path invariants of the replay loop: the produced path is free of
already-seen indices, has no duplicates, and every entry is below
`maxQ`. -/
theorem runLoop_path (levelId maxQ : Nat) (rules : Option LevelGraph)
    (answers : AMap) :
    ∀ (fuel : Nat) (qIdx? : Option Int) (seen : List Int) (vars : Vars)
      (pr gr : Option String) (out : LoopOut),
      runLoop levelId maxQ rules answers fuel qIdx? seen vars pr gr = some out →
      out.path.Nodup ∧ (∀ i ∈ out.path, i ∉ seen ∧ i < (maxQ : Int)) := by
  intro fuel
  induction fuel with
  | zero =>
    intro qIdx? seen vars pr gr out h
    simp [runLoop] at h
  | succ fuel ih =>
    intro qIdx? seen vars pr gr out h
    cases qIdx? with
    | none =>
      cases h
      simp
    | some q =>
      simp only [runLoop] at h
      by_cases hlt : q < (maxQ : Int)
      · rw [if_pos hlt] at h
        by_cases hseen : q ∈ seen
        · rw [if_pos hseen] at h
          cases h
          simp
        · rw [if_neg hseen] at h
          cases hla : lookupA answers q with
          | none =>
            rw [hla] at h
            cases h
            refine ⟨by simp, ?_⟩
            intro i hi
            simp only [List.mem_singleton] at hi
            subst hi
            exact ⟨hseen, hlt⟩
          | some val =>
            rw [hla] at h
            simp only at h
            by_cases hc : (passesRule levelId q val rules vars).complete = true
            · rw [if_pos hc] at h
              cases h
              exact ⟨by simp, by
                intro i hi
                simp only [List.mem_singleton] at hi
                subst hi
                exact ⟨hseen, hlt⟩⟩
            · rw [if_neg hc] at h
              by_cases hok : (passesRule levelId q val rules vars).ok = false
              · rw [if_pos hok] at h
                cases h
                exact ⟨by simp, by
                  intro i hi
                  simp only [List.mem_singleton] at hi
                  subst hi
                  exact ⟨hseen, hlt⟩⟩
              · rw [if_neg hok] at h
                have hstep : ∀ o2 : LoopOut,
                    runLoop levelId maxQ rules answers fuel
                      (match (passesRule levelId q val rules vars).nextNode with
                        | some s => indexFromNodeId s
                        | none => none)
                      (q :: seen)
                      (((passesRule levelId q val rules vars).vars).getD vars)
                      (if optTruthy (passesRule levelId q val rules vars).print then
                        (passesRule levelId q val rules vars).print else pr)
                      (if optTruthy (passesRule levelId q val rules vars).guardReason then
                        (passesRule levelId q val rules vars).guardReason else gr)
                      = some o2 →
                    out = { o2 with path := q :: o2.path } →
                    out.path.Nodup ∧ ∀ i ∈ out.path, i ∉ seen ∧ i < (maxQ : Int) := by
                  intro o2 ho2 hdef
                  obtain ⟨hnd2, hb2⟩ := ih _ _ _ _ _ _ ho2
                  subst hdef
                  constructor
                  · refine List.nodup_cons.mpr ⟨?_, hnd2⟩
                    intro hqin
                    exact (hb2 q hqin).1 (List.mem_cons_self _ _)
                  · intro i hi
                    rcases List.mem_cons.mp hi with h1 | h1
                    · subst h1
                      exact ⟨hseen, hlt⟩
                    · obtain ⟨hns, hb⟩ := hb2 i h1
                      exact ⟨fun hin => hns (List.mem_cons_of_mem _ hin), hb⟩
                by_cases hr1 : (passesRule levelId q val rules vars).action = some "resetTo"
                    ∧ optTruthy (passesRule levelId q val rules vars).nextNode = true
                · rw [if_pos hr1] at h
                  rcases Option.map_eq_some'.mp h with ⟨o, ho, hodef⟩
                  exact hstep o ho hodef.symm
                · rw [if_neg hr1] at h
                  by_cases hr2 : optTruthy (passesRule levelId q val rules vars).nextNode
                      = true
                  · rw [if_pos hr2] at h
                    rcases Option.map_eq_some'.mp h with ⟨o, ho, hodef⟩
                    exact hstep o ho hodef.symm
                  · rw [if_neg hr2] at h
                    cases h
                    exact ⟨by simp, by
                      intro i hi
                      simp only [List.mem_singleton] at hi
                      subst hi
                      exact ⟨hseen, hlt⟩⟩
      · rw [if_neg hlt] at h
        cases h
        simp

/-! ## Pruning lemmas -/

theorem lookupA_nil (i : Int) : lookupA [] i = none := rfl

theorem lookupA_cons (j : Int) (v : JSVal) (t : AMap) (i : Int) :
    lookupA ((j, v) :: t) i = if j = i then some v else lookupA t i := by
  by_cases h : j = i
  · simp [lookupA, List.find?_cons_of_pos, h]
  · simp [lookupA, List.find?_cons_of_neg, h]

theorem lookupA_prune_not_mem (path : List Int) (answers : AMap) (i : Int)
    (h : i ∉ path) : lookupA (prune path answers) i = none := by
  induction path with
  | nil => rfl
  | cons j t ih =>
    have hji : j ≠ i := fun h2 => h (h2 ▸ List.mem_cons_self _ _)
    have hit : i ∉ t := fun h2 => h (List.mem_cons_of_mem _ h2)
    simp only [prune, List.filterMap_cons]
    cases hla : lookupA answers j with
    | none => exact ih hit
    | some v =>
      simp only [Option.map_some']
      rw [lookupA_cons, if_neg hji]
      exact ih hit

theorem lookupA_prune_mem (path : List Int) (answers : AMap) (i : Int)
    (hmem : i ∈ path) (hnd : path.Nodup) :
    lookupA (prune path answers) i = lookupA answers i := by
  induction path with
  | nil => simp at hmem
  | cons j t ih =>
    obtain ⟨hjt, hndt⟩ := List.nodup_cons.mp hnd
    simp only [prune, List.filterMap_cons]
    rcases List.mem_cons.mp hmem with h1 | h1
    · subst h1
      cases hla : lookupA answers i with
      | none =>
        have : lookupA (prune t answers) i = none := lookupA_prune_not_mem t answers i hjt
        simpa [prune] using this
      | some v =>
        simp only [Option.map_some']
        rw [lookupA_cons, if_pos rfl]
    · have hji : j ≠ i := fun h2 => hjt (h2 ▸ h1)
      cases hla : lookupA answers j with
      | none => exact ih h1 hndt
      | some v =>
        simp only [Option.map_some']
        rw [lookupA_cons, if_neg hji]
        exact ih h1 hndt

theorem prune_prune (path : List Int) (answers : AMap) (hnd : path.Nodup) :
    prune path (prune path answers) = prune path answers := by
  conv_lhs => rw [prune]
  conv_rhs => rw [prune]
  apply List.filterMap_congr
  intro i hi
  rw [lookupA_prune_mem path answers i hi hnd]

/-! ## Remaining outcome helpers -/

theorem jnumLtB_toRat (x y : JNum) : jnumLtB x y = decide (x.toRat < y.toRat) := by
  unfold jnumLtB JNum.toRat
  rw [decide_eq_decide]
  rw [div_lt_div_iff₀ (by positivity) (by positivity)]
  exact_mod_cast Iff.rfl

theorem jnumLeB_toRat (x y : JNum) : jnumLeB x y = decide (x.toRat ≤ y.toRat) := by
  unfold jnumLeB JNum.toRat
  rw [decide_eq_decide]
  rw [div_le_div_iff₀ (by positivity) (by positivity)]
  exact_mod_cast Iff.rfl

theorem guardOutcome_vars (vs : Vars) (g : Guard) (r : Route) :
    (guardOutcome vs g r).vars = some vs := by
  unfold guardOutcome
  split
  · rfl
  · split
    · rfl
    · split
      · rfl
      · rfl

theorem fallbackOutcome_vars (n : Node) (vs : Vars) :
    (fallbackOutcome n vs).vars = some vs := by
  unfold fallbackOutcome
  split
  · rfl
  · split
    · rfl
    · split
      · rfl
      · rfl

theorem lookupVar_recordAnswer_ne (node : Node) (ans : JSVal) (vars : Vars)
    (k : String) (h : k ≠ node.field) :
    lookupVar (recordAnswer node ans vars) k = lookupVar vars k := by
  unfold recordAnswer
  split
  · exact lookupVar_setVar_ne _ _ _ _ h
  · rfl

theorem lookupVar_recordAnswer_self (node : Node) (ans : JSVal) (vars : Vars)
    (h : node.field ≠ "") :
    lookupVar (recordAnswer node ans vars) node.field
      = some (normalizeAnswer node ans) := by
  unfold recordAnswer
  rw [if_pos h]
  exact lookupVar_setVar_self _ _ _

theorem tryRoute_guard_taken {vs : Vars} {r : Route} {g : Guard}
    (hg : r.guard = some g) (hw : whenMatch vs r = true)
    (hm : guardMatch vs g = true) :
    tryRoute vs r = some (guardOutcome vs g r) := by
  simp [tryRoute, hw, hg, hm]

/-! ## C3 — condition-evaluator semantics -/

/-- C3: for all operands, `compare("==", a, b)` holds iff the
stringifications agree and `"!="` is its negation (so `true == "true"`);
the four numeric operators coerce both sides to numbers, are false
whenever either coercion is NaN, and otherwise decide the rational
order; any operator outside the six yields false.  (Purity holds by
construction: `opCompare` is a Lean function of its arguments.) -/
theorem c3_opCompare_spec (a b : JSVal) :
    (opCompare "==" a b = true ↔ jsToString a = jsToString b) ∧
    (opCompare "!=" a b = !(opCompare "==" a b)) ∧
    opCompare "==" (JSVal.vBool true) (JSVal.vStr "true") = true ∧
    (∀ op, (op = "<" ∨ op = "<=" ∨ op = ">" ∨ op = ">=") →
      (toNumber a = none ∨ toNumber b = none) → opCompare op a b = false) ∧
    (∀ x y, toNumber a = some x → toNumber b = some y →
      opCompare "<" a b = decide (x.toRat < y.toRat) ∧
      opCompare "<=" a b = decide (x.toRat ≤ y.toRat) ∧
      opCompare ">" a b = decide (y.toRat < x.toRat) ∧
      opCompare ">=" a b = decide (y.toRat ≤ x.toRat)) ∧
    (∀ op, op ≠ "==" → op ≠ "!=" → op ≠ "<" → op ≠ "<=" → op ≠ ">" → op ≠ ">=" →
      opCompare op a b = false) := by
  refine ⟨?_, ?_, by decide, ?_, ?_, ?_⟩
  · simp [opCompare]
  · simp [opCompare, decide_not]
  · intro op hop hnan
    have hl : ∀ f y, jnumCmp f none y = false := by
      intro f y
      cases y <;> rfl
    have hr : ∀ f x, jnumCmp f x none = false := by
      intro f x
      cases x <;> rfl
    rcases hop with h | h | h | h <;> subst h <;> rcases hnan with h2 | h2 <;>
      simp [opCompare, h2, hl, hr]
  · intro x y hx hy
    refine ⟨?_, ?_, ?_, ?_⟩ <;>
      simp [opCompare, hx, hy, jnumCmp, jnumLtB_toRat, jnumLeB_toRat]
  · intro op h1 h2 h3 h4 h5 h6
    simp [opCompare, h1, h2, h3, h4, h5, h6]

/-- Witness for C3 at concrete operands. -/
theorem c3_opCompare_spec_witness :
    opCompare "<" (JSVal.vStr "no") (JSVal.vStr "3") = false ∧
    opCompare "~" (JSVal.vStr "1") (JSVal.vStr "2") = false ∧
    opCompare "<" (JSVal.vStr "15") (JSVal.vStr "18")
      = decide ((JNum.mk 15 0).toRat < (JNum.mk 18 0).toRat) :=
  ⟨(c3_opCompare_spec (JSVal.vStr "no") (JSVal.vStr "3")).2.2.2.1 "<" (Or.inl rfl)
      (Or.inl (by decide)),
   (c3_opCompare_spec (JSVal.vStr "1") (JSVal.vStr "2")).2.2.2.2.2 "~"
      (by decide) (by decide) (by decide) (by decide) (by decide) (by decide),
   ((c3_opCompare_spec (JSVal.vStr "15") (JSVal.vStr "18")).2.2.2.2.1
      ⟨15, 0⟩ ⟨18, 0⟩ (by decide) (by decide)).1⟩

/-! ## C2 — first-match priority with guard-as-predicate -/

/-- C2: the step router scans routes in declaration order; a taken route
settles the outcome and later routes are never examined (the scan result
does not depend on them); a route is skipped exactly when its condition
fails or its guard is present and fails, scanning continuing with the
later routes; and the router resolves through the scan, falling back to
the node fallback when no route is taken. -/
theorem c2_first_match_priority (rules : LevelGraph) (nodeId : String)
    (ans : JSVal) (vars vs : Vars) (r : Route) (rest rest2 : List Route)
    (node : Node) (o : Outcome) :
    (tryRoute vs r = some o → scanRoutes vs (r :: rest) = some o) ∧
    (tryRoute vs r = some o →
      scanRoutes vs (r :: rest) = scanRoutes vs (r :: rest2)) ∧
    (tryRoute vs r = none ↔
      (whenMatch vs r = false ∨ ∃ g, r.guard = some g ∧ guardMatch vs g = false)) ∧
    (tryRoute vs r = none → scanRoutes vs (r :: rest) = scanRoutes vs rest) ∧
    (rules.nodes.find? (fun n => decide (n.id = nodeId)) = some node →
      (scanRoutes (recordAnswer node ans vars) node.routes = some o →
        evalRoutesFor (some rules) nodeId ans vars = o) ∧
      (scanRoutes (recordAnswer node ans vars) node.routes = none →
        evalRoutesFor (some rules) nodeId ans vars
          = fallbackOutcome node (recordAnswer node ans vars))) := by
  refine ⟨fun h => scanRoutes_cons_some h rest, ?_, tryRoute_eq_none_iff vs r,
    fun h => scanRoutes_cons_none h rest, ?_⟩
  · intro h
    rw [scanRoutes_cons_some h rest, scanRoutes_cons_some h rest2]
  · intro hfind
    constructor
    · intro hscan
      simp [evalRoutesFor, hfind, hscan]
    · intro hscan
      simp [evalRoutesFor, hfind, hscan]

/-- The §8 guarded-route scenario: `when amount == 100` with guard
`age >= 18 next END`, vars carrying `age: 15`. -/
def guardedScenarioRoute : Route :=
  { whenField := "amount", whenOp := "==", whenValue := JSVal.vStr "100",
    goto_node := some "L1Q2",
    guard := some ⟨"age", ">=", JSVal.vStr "18", "END", ""⟩ }

/-- Witness for C2: in the guarded scenario the `when` condition matches
but the guard fails, so the route is skipped and scanning continues. -/
theorem c2_first_match_priority_witness :
    scanRoutes [("age", JSVal.vNum ⟨15, 0⟩), ("amount", JSVal.vStr "100")]
        (guardedScenarioRoute :: [])
      = scanRoutes [("age", JSVal.vNum ⟨15, 0⟩), ("amount", JSVal.vStr "100")] [] :=
  (c2_first_match_priority ⟨none, [], none⟩ "" JSVal.vNull []
      [("age", JSVal.vNum ⟨15, 0⟩), ("amount", JSVal.vStr "100")]
      guardedScenarioRoute [] [] ⟨"", "", "", [], none⟩
      { ok := true }).2.2.2.1 (by decide)

/-! ## C8 — the step router never mutates its input vars -/

/-- C8: the router computes on a fresh snapshot (in the embedding, vars
are immutable values, so the caller's mapping is untouched by
construction).  The outcome omits the snapshot exactly when the node is
unknown; otherwise it returns a snapshot that agrees with the input vars
on every key other than the node's field and the routes' `set` keys, and
that carries the normalized answer under the node's field. -/
theorem c8_router_vars_frame (rules : LevelGraph) (nodeId : String)
    (ans : JSVal) (vars : Vars) :
    (rules.nodes.find? (fun n => decide (n.id = nodeId)) = none →
      (evalRoutesFor (some rules) nodeId ans vars).vars = none) ∧
    (∀ node, rules.nodes.find? (fun n => decide (n.id = nodeId)) = some node →
      ∃ w, (evalRoutesFor (some rules) nodeId ans vars).vars = some w ∧
        (∀ k, k ≠ node.field →
          (∀ r ∈ node.routes, ∀ ps, r.set = some ps → ∀ p ∈ ps, p.1 ≠ k) →
          lookupVar w k = lookupVar vars k) ∧
        (node.field ≠ "" →
          (∀ r ∈ node.routes, ∀ ps, r.set = some ps → ∀ p ∈ ps, p.1 ≠ node.field) →
          lookupVar w node.field = some (normalizeAnswer node ans))) := by
  constructor
  · intro hfind
    simp [evalRoutesFor, hfind]
  · intro node hfind
    cases hscan : scanRoutes (recordAnswer node ans vars) node.routes with
    | none =>
      refine ⟨recordAnswer node ans vars, ?_, ?_, ?_⟩
      · simp [evalRoutesFor, hfind, hscan, fallbackOutcome_vars]
      · intro k hk _
        exact lookupVar_recordAnswer_ne node ans vars k hk
      · intro hf _
        exact lookupVar_recordAnswer_self node ans vars hf
    | some o =>
      have heval : evalRoutesFor (some rules) nodeId ans vars = o := by
        simp [evalRoutesFor, hfind, hscan]
      obtain ⟨r, hr, htr⟩ := scanRoutes_mem hscan
      rcases tryRoute_vars htr with hv | ⟨ps, hps, hv⟩
      · refine ⟨recordAnswer node ans vars, by rw [heval]; exact hv, ?_, ?_⟩
        · intro k hk _
          exact lookupVar_recordAnswer_ne node ans vars k hk
        · intro hf _
          exact lookupVar_recordAnswer_self node ans vars hf
      · refine ⟨applyAssign (recordAnswer node ans vars) ps,
          by rw [heval]; exact hv, ?_, ?_⟩
        · intro k hk hset
          rw [lookupVar_applyAssign_not_mem ps _ k
            (fun p hp => hset r hr ps hps p hp)]
          exact lookupVar_recordAnswer_ne node ans vars k hk
        · intro hf hset
          rw [lookupVar_applyAssign_not_mem ps _ _
            (fun p hp => hset r hr ps hps p hp)]
          exact lookupVar_recordAnswer_self node ans vars hf

/-- Witness for C8 on the compiled bool-gate node. -/
theorem c8_router_vars_frame_witness :
    ∃ w, (evalRoutesFor (some (LevelGraph.mk (some "L1Q1") [boolGateNode] none))
        "L1Q1" (JSVal.vStr "Yes") []).vars = some w ∧
      lookupVar w "eligible" = some (JSVal.vBool true) := by
  obtain ⟨w, hw, hfr, hself⟩ :=
    (c8_router_vars_frame (LevelGraph.mk (some "L1Q1") [boolGateNode] none)
      "L1Q1" (JSVal.vStr "Yes") []).2 boolGateNode (by decide)
  refine ⟨w, hw, ?_⟩
  have hset : ∀ r ∈ boolGateNode.routes, ∀ ps, r.set = some ps →
      ∀ p ∈ ps, p.1 ≠ boolGateNode.field := by
    intro r hr ps hps
    simp [boolGateNode] at hr
    subst hr
    simp [boolGateRoute] at hps
  have h2 := hself (by decide) hset
  simpa using h2

/-! ## C10 — guarded routes never apply set effects -/

/-- C10: a step resolved through a guarded route — every earlier route
skipped, its condition and its guard both matching — returns the guard
resolution, which never touches the route's `set` assignments: the
returned snapshot is exactly the input vars extended with the node's own
field binding. -/
theorem c10_guarded_route_no_set (rules : LevelGraph) (nodeId : String)
    (ans : JSVal) (vars : Vars) (node : Node) (pre rest : List Route) (r : Route)
    (g : Guard)
    (hfind : rules.nodes.find? (fun n => decide (n.id = nodeId)) = some node)
    (hroutes : node.routes = pre ++ r :: rest)
    (hskip : ∀ p ∈ pre, tryRoute (recordAnswer node ans vars) p = none)
    (hg : r.guard = some g)
    (hw : whenMatch (recordAnswer node ans vars) r = true)
    (hm : guardMatch (recordAnswer node ans vars) g = true) :
    evalRoutesFor (some rules) nodeId ans vars
        = guardOutcome (recordAnswer node ans vars) g r ∧
    (evalRoutesFor (some rules) nodeId ans vars).vars
        = some (recordAnswer node ans vars) := by
  have hscan : scanRoutes (recordAnswer node ans vars) node.routes
      = some (guardOutcome (recordAnswer node ans vars) g r) := by
    rw [hroutes, scanRoutes_append_skip hskip,
      scanRoutes_cons_some (tryRoute_guard_taken hg hw hm)]
  constructor
  · simp [evalRoutesFor, hfind, hscan]
  · simp [evalRoutesFor, hfind, hscan, guardOutcome_vars]

/-- A guarded route that also carries a `set` assignment. -/
def c10Route : Route :=
  { whenField := "f", whenOp := "==", whenValue := JSVal.vStr "x",
    set := some [("X", JSVal.vStr "1")],
    guard := some ⟨"age", ">=", JSVal.vStr "18", "END", ""⟩ }

/-- The node and graph around `c10Route`. -/
def c10Node : Node :=
  ⟨"L1Q1", "f", "t", [c10Route], none⟩

/-- Witness for C10: the guard matches, and the returned snapshot is the
bare field binding — the `set` assignment to `X` is not applied. -/
theorem c10_guarded_route_no_set_witness :
    (evalRoutesFor (some (LevelGraph.mk (some "L1Q1") [c10Node] none)) "L1Q1"
        (JSVal.vStr "x") [("age", JSVal.vNum ⟨18, 0⟩)]).vars
      = some (recordAnswer c10Node (JSVal.vStr "x") [("age", JSVal.vNum ⟨18, 0⟩)]) :=
  (c10_guarded_route_no_set (LevelGraph.mk (some "L1Q1") [c10Node] none) "L1Q1"
    (JSVal.vStr "x") [("age", JSVal.vNum ⟨18, 0⟩)] c10Node [] [] c10Route
    ⟨"age", ">=", JSVal.vStr "18", "END", ""⟩
    (by decide) rfl (by simp) rfl (by decide) (by decide)).2

/-! ## C6 — cycle termination -/

/-- C6: for every graph (cyclic ones included), every answers map and
every seed, the replay loop exits on its own — the canonical fuel is
never exhausted — and a revisited index halts the loop silently, with no
failure record and no error. -/
theorem c6_cycle_termination (levelId maxQ : Nat) (rules : Option LevelGraph)
    (answers : AMap) (healthState : String) :
    (runLoop levelId maxQ rules answers (loopFuel rules) (some 0) []
      (defaultVars healthState) none none).isSome = true ∧
    (∀ (fuel : Nat) (q : Int) (seen : List Int) (vars : Vars)
        (pr gr : Option String),
      q ∈ seen → q < (maxQ : Int) →
      runLoop levelId maxQ rules answers (fuel + 1) (some q) seen vars pr gr
        = some ⟨[], vars, none, false, pr, gr⟩) := by
  constructor
  · exact runLoop_total_init levelId maxQ rules answers (defaultVars healthState)
      none none
  · intro fuel q seen vars pr gr hmem hlt
    simp only [runLoop]
    rw [if_pos hlt, if_pos hmem]

/-- A graph with a self-loop at `L1Q1`. -/
def cycleRules : Option LevelGraph :=
  some ⟨some "L1Q1",
    [⟨"L1Q1", "f", "t",
      [{ whenField := "f", whenOp := "==", whenValue := JSVal.vStr "x",
         goto_node := some "L1Q1" }], none⟩], none⟩

/-- Witness for C6 on the self-loop graph: a revisited index halts
silently. -/
theorem c6_cycle_termination_witness :
    runLoop 1 1 cycleRules [(0, JSVal.vStr "x")] 1 (some 0) [0] [] none none
      = some ⟨[], [], none, false, none, none⟩ :=
  (c6_cycle_termination 1 1 cycleRules [(0, JSVal.vStr "x")] "").2 0 0 [0] []
    none none (by decide) (by decide)

/-! ## C4 — idempotent pruning -/

/-- C4: replaying the pruned answers of a replay yields the same pruned
answers (and the same path): the loop reads answers only at path
indices, where the pruned map agrees with the original. -/
theorem c4_idempotent_pruning (levelId maxQ : Nat) (rules : Option LevelGraph)
    (answers : AMap) (healthState : String) :
    (replayLevel levelId maxQ rules
        (replayLevel levelId maxQ rules answers healthState).answers
        healthState).answers
      = (replayLevel levelId maxQ rules answers healthState).answers ∧
    (replayLevel levelId maxQ rules
        (replayLevel levelId maxQ rules answers healthState).answers
        healthState).path
      = (replayLevel levelId maxQ rules answers healthState).path := by
  have htot := runLoop_total_init levelId maxQ rules answers
    (defaultVars healthState) none none
  cases hrun : runLoop levelId maxQ rules answers (loopFuel rules) (some 0) []
      (defaultVars healthState) none none with
  | none =>
    rw [hrun] at htot
    simp at htot
  | some out =>
    have hnd : out.path.Nodup :=
      (runLoop_path levelId maxQ rules answers (loopFuel rules) (some 0) []
        (defaultVars healthState) none none out hrun).1
    have hR1 : replayLevel levelId maxQ rules answers healthState
        = ⟨out.path, out.vars, out.stop, out.ended, prune out.path answers,
           out.print, out.guardReason⟩ := by
      simp only [replayLevel, hrun]
    have hagree : ∀ i ∈ out.path,
        lookupA (prune out.path answers) i = lookupA answers i := fun i hi =>
      lookupA_prune_mem out.path answers i hi hnd
    have hrun2 : runLoop levelId maxQ rules (prune out.path answers)
        (loopFuel rules) (some 0) [] (defaultVars healthState) none none
        = some out :=
      runLoop_agree levelId maxQ rules answers (prune out.path answers)
        (loopFuel rules) (some 0) [] (defaultVars healthState) none none out
        hrun hagree
    have hR2 : replayLevel levelId maxQ rules (prune out.path answers) healthState
        = ⟨out.path, out.vars, out.stop, out.ended,
           prune out.path (prune out.path answers), out.print, out.guardReason⟩ := by
      simp only [replayLevel, hrun2]
    rw [hR1]
    simp only
    rw [hR2]
    simp only
    exact ⟨prune_prune out.path answers hnd, trivial⟩

/-! ## C9 — path invariants (amended) -/

/-- The first path entry of a live loop iteration is the current index. -/
theorem runLoop_head (levelId maxQ : Nat) (rules : Option LevelGraph)
    (answers : AMap) (fuel : Nat) (q : Int) (seen : List Int) (vars : Vars)
    (pr gr : Option String) (out : LoopOut)
    (h : runLoop levelId maxQ rules answers (fuel + 1) (some q) seen vars pr gr
      = some out)
    (hlt : q < (maxQ : Int)) (hseen : q ∉ seen) :
    out.path.head? = some q := by
  simp only [runLoop] at h
  rw [if_pos hlt, if_neg hseen] at h
  cases hla : lookupA answers q with
  | none =>
    rw [hla] at h
    cases h
    rfl
  | some val =>
    rw [hla] at h
    simp only at h
    by_cases hc : (passesRule levelId q val rules vars).complete = true
    · rw [if_pos hc] at h
      cases h
      rfl
    · rw [if_neg hc] at h
      by_cases hok : (passesRule levelId q val rules vars).ok = false
      · rw [if_pos hok] at h
        cases h
        rfl
      · rw [if_neg hok] at h
        by_cases hr1 : (passesRule levelId q val rules vars).action = some "resetTo"
            ∧ optTruthy (passesRule levelId q val rules vars).nextNode = true
        · rw [if_pos hr1] at h
          rcases Option.map_eq_some'.mp h with ⟨o, _, hodef⟩
          rw [← hodef]
          rfl
        · rw [if_neg hr1] at h
          by_cases hr2 : optTruthy (passesRule levelId q val rules vars).nextNode
              = true
          · rw [if_pos hr2] at h
            rcases Option.map_eq_some'.mp h with ⟨o, _, hodef⟩
            rw [← hodef]
            rfl
          · rw [if_neg hr2] at h
            cases h
            rfl

theorem nodup_nonneg_lt_length_le {l : List Int} {m : Nat} (hnd : l.Nodup)
    (h0 : ∀ i ∈ l, 0 ≤ i) (hm : ∀ i ∈ l, i < (m : Int)) : l.length ≤ m := by
  have h1 : l.toFinset.card = l.length := List.toFinset_card_of_nodup hnd
  have h2 : l.toFinset ⊆ Finset.Ico (0 : Int) (m : Int) := by
    intro a ha
    rw [List.mem_toFinset] at ha
    exact Finset.mem_Ico.mpr ⟨h0 a ha, hm a ha⟩
  have h3 := Finset.card_le_card h2
  have h4 : (Finset.Ico (0 : Int) (m : Int)).card = m := by
    rw [Int.card_Ico]
    simp
  omega

/-- C9 (amended): the replay path is duplicate-free and every entry is
strictly below the question count (entries can be negative for malformed
targets); when all entries are non-negative the path length is bounded
by the question count; and a current index at or beyond the count, or an
unparseable one, halts the loop silently instead of crashing. -/
theorem c9_path_invariants (levelId maxQ : Nat) (rules : Option LevelGraph)
    (answers : AMap) (healthState : String) :
    (replayLevel levelId maxQ rules answers healthState).path.Nodup ∧
    (∀ i ∈ (replayLevel levelId maxQ rules answers healthState).path,
      i < (maxQ : Int)) ∧
    ((∀ i ∈ (replayLevel levelId maxQ rules answers healthState).path, 0 ≤ i) →
      (replayLevel levelId maxQ rules answers healthState).path.length ≤ maxQ) ∧
    (∀ (fuel : Nat) (q : Int) (seen : List Int) (vars : Vars)
        (pr gr : Option String), ¬ q < (maxQ : Int) →
      runLoop levelId maxQ rules answers (fuel + 1) (some q) seen vars pr gr
        = some ⟨[], vars, none, false, pr, gr⟩) ∧
    (∀ (fuel : Nat) (seen : List Int) (vars : Vars) (pr gr : Option String),
      runLoop levelId maxQ rules answers (fuel + 1) none seen vars pr gr
        = some ⟨[], vars, none, false, pr, gr⟩) := by
  have htot := runLoop_total_init levelId maxQ rules answers
    (defaultVars healthState) none none
  cases hrun : runLoop levelId maxQ rules answers (loopFuel rules) (some 0) []
      (defaultVars healthState) none none with
  | none =>
    rw [hrun] at htot
    simp at htot
  | some out =>
    obtain ⟨hnd, hb⟩ := runLoop_path levelId maxQ rules answers (loopFuel rules)
      (some 0) [] (defaultVars healthState) none none out hrun
    have hR : replayLevel levelId maxQ rules answers healthState
        = ⟨out.path, out.vars, out.stop, out.ended, prune out.path answers,
           out.print, out.guardReason⟩ := by
      simp only [replayLevel, hrun]
    rw [hR]
    simp only
    refine ⟨hnd, fun i hi => (hb i hi).2, ?_, ?_, ?_⟩
    · intro h0
      exact nodup_nonneg_lt_length_le hnd h0 (fun i hi => (hb i hi).2)
    · intro fuel q seen vars pr gr hq
      simp only [runLoop]
      rw [if_neg hq]
    · intro fuel seen vars pr gr
      simp only [runLoop]

/-- Counterexample to C9 as stated: a route target `"L1Q0"` parses to
index `-1`, which is pushed onto the path — outside `[0, maxQ)`. -/
theorem c9_counterexample :
    (replayLevel 1 1 negTargetRules [(0, JSVal.vStr "x")] "").path = [0, -1] ∧
    ¬ ((0 : Int) ≤ -1) := by decide

/-- Witness for C9 at concrete inputs. -/
theorem c9_path_invariants_witness :
    (replayLevel 1 2 boolGateRules [(0, JSVal.vStr "Yes")] "").path.length ≤ 2 ∧
    runLoop 1 2 boolGateRules [] 1 (some 5) [] [] none none
      = some ⟨[], [], none, false, none, none⟩ :=
  ⟨(c9_path_invariants 1 2 boolGateRules [(0, JSVal.vStr "Yes")] "").2.2.1
      (by decide),
   (c9_path_invariants 1 2 boolGateRules [] "").2.2.2.1 0 5 [] [] none none
      (by decide)⟩

/-! ## C5 — where the walk starts (amended) -/

/-- C5 (amended): whenever the level has at least one question, the
replay path starts at question index 0 — unconditionally, whatever the
graph records as `entry_node` (the router output is independent of the
`entry_node` field); under the fixed id scheme, index `i` of level 1
round-trips through `nodeIdFor`/`indexFromNodeId`, so the walk starts at
the entry node exactly when that node's id is `L{level}Q1`. -/
theorem c5_replay_starts_at_zero (levelId maxQ : Nat) (rules : Option LevelGraph)
    (answers : AMap) (healthState : String) (hmax : 0 < maxQ) :
    (replayLevel levelId maxQ rules answers healthState).path.head? = some 0 ∧
    (∀ (e1 e2 : Option String) (ns : List Node) (fb : Option String)
        (nodeId : String) (a : JSVal) (vs : Vars),
      evalRoutesFor (some ⟨e1, ns, fb⟩) nodeId a vs
        = evalRoutesFor (some ⟨e2, ns, fb⟩) nodeId a vs) ∧
    (∀ i : Nat, i < 30 → indexFromNodeId (nodeIdFor 1 (i : Int)) = some (i : Int)) := by
  refine ⟨?_, fun e1 e2 ns fb nodeId a vs => rfl, by decide⟩
  have htot := runLoop_total_init levelId maxQ rules answers
    (defaultVars healthState) none none
  cases hrun : runLoop levelId maxQ rules answers (loopFuel rules) (some 0) []
      (defaultVars healthState) none none with
  | none =>
    rw [hrun] at htot
    simp at htot
  | some out =>
    have hrun' : runLoop levelId maxQ rules answers
        ((candIdxs rules).dedup.length + 1) (some 0) [] (defaultVars healthState)
        none none = some out := hrun
    have hhead := runLoop_head levelId maxQ rules answers
      ((candIdxs rules).dedup.length) 0 [] (defaultVars healthState) none none out
      hrun' (by exact_mod_cast hmax) (by simp)
    simp only [replayLevel, hrun]
    exact hhead

/-- Witness for C5 (amended). -/
theorem c5_replay_starts_at_zero_witness :
    (replayLevel 1 2 boolGateRules [(0, JSVal.vStr "Yes")] "").path.head?
      = some 0 :=
  (c5_replay_starts_at_zero 1 2 boolGateRules [(0, JSVal.vStr "Yes")] ""
    (by decide)).1

/-- A rule row whose `qId` does not follow the fixed id scheme position:
the first (and only) node of level 1 is `L1Q3`. -/
def entryMismatchRow : Row := { level := "1", qId := "L1Q3" }

/-- Counterexample to C5 as stated: the compiled graph records
`entry_node = "L1Q3"` (question index 2), yet the replay path starts at
index 0 — the walk does not begin at the entry node. -/
theorem c5_counterexample :
    (lookupL (buildLogic [entryMismatchRow]) "1").map LevelGraph.entry_node
      = some (some "L1Q3") ∧
    indexFromNodeId "L1Q3" = some 2 ∧
    (replayLevel 1 3 (lookupL (buildLogic [entryMismatchRow]) "1") [] "").path
      = [0] ∧
    (0 : Int) ≠ 2 := by decide

/-! ## C1 — the bool-gate scenario (amended) -/

/-- Counterexample to C1 as stated: in the compiled bool-gate scenario
(route `when eligible == true goto L1Q2`, `fail_reason "NOT_OK"`, node
fallback `FAIL`), answering `"No"` stops with the generic fallback
reason `"L"`, not `"NOT_OK"` — a node-level fallback carries no reason
slot, and the row's `fail_reason` is not attached to a route whose
`next` is a real node id. -/
theorem c1_counterexample :
    (replayLevel 1 2 boolGateRules [(0, JSVal.vStr "No")] "").stop
      = some ⟨0, "L"⟩ ∧
    (replayLevel 1 2 boolGateRules [(0, JSVal.vStr "No")] "").stop
      ≠ some ⟨0, "NOT_OK"⟩ := by decide

/-- C1 (amended): in the compiled bool-gate scenario, answering `"No"`
yields `stop = { qIndex := 0, reason := "L" }` (the generic fallback
reason), and answering `"Yes"` advances the path to index 1 with `stop`
null and the level not ended. -/
theorem c1_bool_gate_amended :
    (replayLevel 1 2 boolGateRules [(0, JSVal.vStr "No")] "").stop
      = some ⟨0, "L"⟩ ∧
    (replayLevel 1 2 boolGateRules [(0, JSVal.vStr "Yes")] "").path = [0, 1] ∧
    (replayLevel 1 2 boolGateRules [(0, JSVal.vStr "Yes")] "").stop = none ∧
    (replayLevel 1 2 boolGateRules [(0, JSVal.vStr "Yes")] "").ended = false := by
  decide

/-! ## C7 — loud error on an empty level -/

/-- C7: `getLevelRulesOrThrow` errors exactly when the level key is
absent or its node list is empty (and when the whole logic sheet is
missing), while a row lacking `level` or `qId` is skipped by the
compiler without any error, wherever it sits in the sheet. -/
theorem c7_empty_level_error (levelId : Nat) (m : Logic) :
    ((∃ e, getLevelRulesOrThrow levelId (some m) = Except.error e) ↔
      (lookupL m (toString levelId) = none ∨
        ∃ g, lookupL m (toString levelId) = some g ∧ g.nodes = [])) ∧
    (getLevelRulesOrThrow levelId none
      = Except.error "Logic sheet not loaded.") ∧
    (∀ (acc : Logic) (row : Row), (row.level = "" ∨ row.qId = "") →
      buildStep acc row = acc) ∧
    (∀ (pre rest : List Row) (row : Row), (row.level = "" ∨ row.qId = "") →
      buildLogic (pre ++ row :: rest) = buildLogic (pre ++ rest)) := by
  have hstep : ∀ (acc : Logic) (row : Row), (row.level = "" ∨ row.qId = "") →
      buildStep acc row = acc := by
    intro acc row hbad
    unfold buildStep
    rcases hbad with h | h
    · rw [if_pos h]
    · by_cases hlv : row.level = ""
      · rw [if_pos hlv]
      · rw [if_neg hlv, if_pos h]
  refine ⟨?_, rfl, hstep, ?_⟩
  · constructor
    · rintro ⟨e, he⟩
      unfold getLevelRulesOrThrow at he
      simp only at he
      cases hl : lookupL m (toString levelId) with
      | none => exact Or.inl rfl
      | some g =>
        rw [hl] at he
        simp only at he
        by_cases hn : g.nodes.length = 0
        · exact Or.inr ⟨g, rfl, List.length_eq_zero.mp hn⟩
        · rw [if_neg hn] at he
          simp at he
    · rintro (hl | ⟨g, hl, hg⟩)
      · refine ⟨"Logic sheet missing nodes for level " ++ toString levelId ++ ".", ?_⟩
        unfold getLevelRulesOrThrow
        simp only
        rw [hl]
      · refine ⟨"Logic sheet missing nodes for level " ++ toString levelId ++ ".", ?_⟩
        unfold getLevelRulesOrThrow
        simp only
        rw [hl]
        simp only
        rw [if_pos (by rw [hg]; rfl)]
  · intro pre rest row hbad
    unfold buildLogic
    rw [List.foldl_append, List.foldl_append, List.foldl_cons, hstep _ row hbad]

/-- Witness for C7: a missing level errors; a row with an empty `level`
cell is skipped wherever it sits. -/
theorem c7_empty_level_error_witness :
    (∃ e, getLevelRulesOrThrow 2 (some (buildLogic [boolGateRow]))
      = Except.error e) ∧
    buildLogic (boolGateRow :: { level := "", qId := "Lx" } :: [])
      = buildLogic (boolGateRow :: []) :=
  ⟨(c7_empty_level_error 2 (buildLogic [boolGateRow])).1.mpr (Or.inl (by decide)),
   (c7_empty_level_error 2 (buildLogic [boolGateRow])).2.2.2 [boolGateRow] []
      { level := "", qId := "Lx" } (Or.inl rfl)⟩

end HajjElig
